import Mathlib

/-
Verification of the PerseveraTools ingestion core: a shallow embedding of
`DataProvider._validate_output` (persevera_tools/data/providers/base.py),
`to_sql` / `read_sql` (persevera_tools/db/operations.py) and
`FinancialDataService.get_data` (persevera_tools/data/financial_data_service.py),
together with theorems settling claims about them.

Modelling conventions:
- Dates are integers (days since the Unix epoch); pandas timestamps compare
  exactly like their day numbers for the data in question.
- Numeric cell values are rationals: the code only stores and copies values,
  it never performs floating-point arithmetic on them.
- The relational sink is a function from the composite natural key to an
  optional stored value; SQL tables carry no row order.
- External collaborators (the PostgreSQL driver executing one statement, the
  provider fetch, the query execution inside `read_sql`) appear as explicit
  function parameters ("oracles"); the PostgreSQL `ON CONFLICT` semantics
  used by `to_sql`'s generated statement is modelled by `pgExecUpdate`.
-/

namespace PerseveraTools

deriving instance DecidableEq for Except

/-! ## Canonical rows and the relational sink -/

/-- One canonical long-format observation as persisted by the ingestion core:
columns `date`, `code`, `field`, `value`. -/
structure DbRow where
  code : String
  date : Int
  field : String
  value : ℚ
  deriving DecidableEq

/-- The composite natural key `(code, date, field)` used by the facade
(`primary_keys=['code', 'date', 'field']`). -/
abbrev Key := String × Int × String

def rowKey (r : DbRow) : Key := (r.code, r.date, r.field)

/-- The persisted table, keyed by the composite natural key. -/
abbrev Sink := Key → Option ℚ

def emptySink : Sink := fun _ => none

/-- Overwrite one keyed row in the sink. -/
def applyRow (s : Sink) (r : DbRow) : Sink :=
  fun k => if k = rowKey r then some r.value else s k

/-- Overwrite a list of rows left to right. -/
def applyRows (s : Sink) (l : List DbRow) : Sink :=
  l.foldl applyRow s

/-- Value of the last row of `l` whose key is `k`, if any. -/
def lastVal (k : Key) : List DbRow → Option ℚ
  | [] => none
  | r :: l =>
    match lastVal k l with
    | some v => some v
    | none => if k = rowKey r then some r.value else none

/-! ## PostgreSQL statement semantics for the generated upsert

`to_sql` builds `INSERT INTO t (cols) VALUES %s ON CONFLICT (keys) DO UPDATE
SET value = EXCLUDED.value` (with `update=True`; for the canonical shape the
only non-key column is `value`) and runs it with
`psycopg2.extras.execute_values`. PostgreSQL processes the VALUES rows in
order; a `DO UPDATE` that would affect a row already inserted or updated by
the same statement raises a cardinality-violation error, and an erroring
statement changes nothing. -/

structure DbErr where
  msg : String
  deriving DecidableEq

def cardinalityViolation : DbErr :=
  ⟨"ON CONFLICT DO UPDATE command cannot affect row a second time"⟩

def pgUpdateGo : Sink → List DbRow → List Key → Except DbErr Sink
  | s, [], _ => .ok s
  | s, r :: rs, affected =>
    if rowKey r ∈ affected then .error cardinalityViolation
    else pgUpdateGo (applyRow s r) rs (rowKey r :: affected)

/-- Executing one `ON CONFLICT (code, date, field) DO UPDATE` statement. -/
def pgExecUpdate (s : Sink) (batch : List DbRow) : Except DbErr Sink :=
  pgUpdateGo s batch []

/-- Executing one `ON CONFLICT DO NOTHING` statement (the `update=False`
branch of `to_sql`): conflicting rows, including conflicts with rows inserted
earlier in the same statement, are skipped without error. -/
def pgExecNothing : Sink → List DbRow → Except DbErr Sink
  | s, [] => .ok s
  | s, r :: rs =>
    pgExecNothing (if (s (rowKey r)).isSome then s else applyRow s r) rs

/-! ## The upsert engine `to_sql`

`to_sql(data, table_name, primary_keys, update, batch_size=5000)`:
- with zero input rows it logs a warning and returns before touching the
  database (no engine, no connection, no table creation);
- otherwise it opens a connection, ensures the table exists
  (`data.head(0).to_sql(..., if_exists='append')`), slices the rows into
  consecutive `data[i:i+batch_size]` batches, and for each batch runs
  `execute_values` followed by `conn.commit()`;
- a driver error (`psycopg2.Error` / `SQLAlchemyError`) in some batch is
  logged and re-raised: later batches never run, the failing statement is
  rolled back when the connection closes, and batches committed earlier
  stay committed. -/

/-- Fuel-driven worker for `chunkList`; the fuel is an upper bound on the
list length, so the zero-fuel non-nil case is never reached from
`chunkList`. -/
def chunkGo (bs : Nat) : Nat → List α → List (List α)
  | _, [] => []
  | 0, _ :: _ => []
  | fuel + 1, a :: l => (a :: l.take (bs - 1)) :: chunkGo bs fuel (l.drop (bs - 1))

/-- Consecutive slices `l[i:i+bs]`, mirroring `range(0, len(data), batch_size)`
slicing (for the positive batch sizes with which `to_sql` is invoked). -/
def chunkList (bs : Nat) (l : List α) : List (List α) :=
  chunkGo bs l.length l

/-- The per-batch loop: `execute_values` then `commit`, stopping at the first
driver error, which is re-raised. The returned sink is the committed state. -/
def runBatches (exec : Sink → List DbRow → Except DbErr Sink) :
    Sink → List (List DbRow) → Sink × Option DbErr
  | s, [] => (s, none)
  | s, b :: bs =>
    match exec s b with
    | .error e => (s, some e)
    | .ok s' => runBatches exec s' bs

/-- The committed state after running a list of batches, stopping at the
first failing statement. -/
def applyOkBatches (exec : Sink → List DbRow → Except DbErr Sink) :
    Sink → List (List DbRow) → Sink
  | s, [] => s
  | s, b :: bs =>
    match exec s b with
    | .ok s' => applyOkBatches exec s' bs
    | .error _ => s

/-- Concatenation of the maximal prefix of batches whose statements succeed
under `pgExecUpdate` (a statement succeeds exactly when its batch has no
duplicate keys, independently of the sink). -/
def goodJoin : List (List DbRow) → List DbRow
  | [] => []
  | b :: bs => if (b.map rowKey).Nodup then b ++ goodJoin bs else []

/-- Observable outcome of one `to_sql` call: the committed sink, the raised
database error (if any), and whether a connection was opened / the target
table creation was attempted. -/
structure ToSqlOut where
  sink : Sink
  err : Option DbErr
  connOpened : Bool
  tableEnsured : Bool

/-- `to_sql`, parameterized by the statement executor `exec` (the external
database driver running the generated `INSERT ... ON CONFLICT` statement on
one batch; `pgExecUpdate` for `update=True` on the canonical shape, where
`value` is the only non-key column, so the all-columns-are-keys early return
is never taken). -/
def to_sql (exec : Sink → List DbRow → Except DbErr Sink)
    (data : List DbRow) (batchSize : Nat) (s : Sink) : ToSqlOut :=
  match data with
  | [] => ⟨s, none, false, false⟩
  | _ :: _ =>
    let p := runBatches exec s (chunkList batchSize data)
    ⟨p.1, p.2, true, true⟩

/-! ## The read engine `read_sql`

`read_sql(sql_query, params, date_columns)` runs `pd.read_sql_query` inside a
`try` whose `except Exception` logs the error and returns `pd.DataFrame()`.
The query execution itself is external; it is modelled as its outcome: either
the frame it produced or the exception message it raised. -/

def read_sql (queryRun : Except String (List α)) : Except String (List α) :=
  match queryRun with
  | .ok df => .ok df
  | .error _ => .ok []

/-! ## The output validator `DataProvider._validate_output`

A raw fetch result: the four canonical columns may each be absent, `date`
cells may fail `pd.to_datetime` coercion, `code` cells may be null, and
`value` cells may be null, a finite number, an infinity, or a cell that
`astype(float)` cannot coerce (e.g. an arbitrary string). The validator
runs, in source order: the missing-column check, `pd.to_datetime` on `date`
(a coercion failure anywhere raises, wrapped by the handler), the null-`code`
check, `dropna(subset=['value'])`, `astype(float)` on the surviving values
(a coercion failure raises, wrapped by the handler), and then
`if not df['value'].isfinite().all()`. -/

inductive RawValue
  | null
  | num (q : ℚ)
  | infinite (pos : Bool)
  | notCoercible
  deriving DecidableEq

/-- Whether `float(cell)` succeeds on a non-null `value` cell: true for
finite numbers and infinities, false for cells such as arbitrary strings. -/
def RawValue.floatCoercible : RawValue → Bool
  | .notCoercible => false
  | _ => true

structure RawRow where
  date : Option Int
  code : Option String
  field : String
  value : RawValue
  deriving DecidableEq

structure RawFrame where
  hasDate : Bool
  hasCode : Bool
  hasField : Bool
  hasValue : Bool
  rows : List RawRow
  deriving DecidableEq

/-- The `ValidationError` variants `_validate_output` can raise: the explicit
missing-column and null-code errors, the wrapped `pd.to_datetime` failure,
the wrapped `astype(float)` ValueError, and the wrapped `AttributeError`
from the finiteness check (see `_validate_output` below). -/
inductive ValidationError
  | missingColumns (cols : List String)
  | dateCoercionFailed
  | nullCode
  | valueCastFailed
  | isfiniteAttributeError
  deriving DecidableEq

/-- `[col for col in required_cols if col not in df.columns]` with
`required_cols = ['date', 'code', 'field', 'value']`. -/
def missingCols (df : RawFrame) : List String :=
  (if df.hasDate then [] else ["date"]) ++
  (if df.hasCode then [] else ["code"]) ++
  (if df.hasField then [] else ["field"]) ++
  (if df.hasValue then [] else ["value"])

/-- `DataProvider._validate_output`. The final steps of the source (the
infinity check, the `start_date` filter with its empty-frame warning path,
the sort and the column projection) are unreachable: the guard
`df['value'].isfinite()` performs an attribute lookup that pandas `Series`
does not define, so on every input that reaches it, Python raises
`AttributeError`, which the surrounding `except Exception` re-raises as
`ValidationError("Data validation failed: ...")`. -/
def _validate_output (startDate : Int) (df : RawFrame) :
    Except ValidationError (List DbRow) :=
  if missingCols df ≠ [] then .error (.missingColumns (missingCols df))
  else if df.rows.any (fun r => r.date.isNone) then .error .dateCoercionFailed
  else if df.rows.any (fun r => r.code.isNone) then .error .nullCode
  -- df = df.dropna(subset=['value']) keeps the rows with non-null `value`;
  -- df['value'] = df['value'].astype(float) then raises ValueError (wrapped
  -- by the handler) when any surviving cell is not float-coercible
  else if (df.rows.filter (fun r => r.value ≠ RawValue.null)).any
      (fun r => !r.value.floatCoercible) then .error .valueCastFailed
  else
    -- `if not df['value'].isfinite().all()`: `Series.isfinite` does not exist,
    -- so this line raises AttributeError for every input, and the handler
    -- turns it into a ValidationError; `startDate` is never consulted.
    .error .isfiniteAttributeError

/-- Control reaches the `df['value'].isfinite()` line exactly when the
validator raises the wrapped AttributeError: that line raises on every
input that reaches it, and no other step produces that error. -/
def reachesFinitenessCheck (startDate : Int) (df : RawFrame) : Prop :=
  _validate_output startDate df = .error .isfiniteAttributeError

/-! ## The orchestration facade `FinancialDataService.get_data`

`get_data(source, save_to_db=True, retry_attempts=3, table_name=None,
**kwargs)` resolves `source` against a fixed provider map (raising
`ValueError` for unknown sources) and then runs
`while attempt < retry_attempts:` around a `try` whose body fetches,
returns immediately on an empty frame, optionally persists via `to_sql`
(with `primary_keys=['code', 'date', 'field']`, `update=True`,
`batch_size=5000`), and returns the frame; `except Exception` increments
`attempt` and records `last_error` — so both fetch errors and persistence
errors are caught by the retry loop. Exhausting the loop raises one
`RuntimeError` built by `aggMsg` below.

The provider fetch and the persistence call are external effects here,
modelled as attempt-indexed oracles: `fetch i` is the outcome of the
`provider.get_data` call on attempt `i`, and `persist i` is `none` when the
`to_sql` call on attempt `i` returns and `some msg` when it raises an
exception with message `msg`. -/

def knownSources : List String :=
  ["sgs", "fred", "sidra", "anbima", "bcb_focus", "simplify", "invesco",
   "kraneshares", "mdic", "b3"]

inductive FacadeResult
  | ok (df : List DbRow)
  | valueError (msg : String)
  | runtimeError (msg : String)
  deriving DecidableEq

/-- Observable outcome of one facade call: the returned frame or raised
error, plus how many times the provider fetch and the persistence call ran. -/
structure FacadeRun where
  result : FacadeResult
  fetchCalls : Nat
  persistCalls : Nat
  deriving DecidableEq

/-- `str(last_error)`: `None` when the loop never ran. -/
def lastErrStr : Option String → String
  | none => "None"
  | some m => m

/-- `f"Failed to retrieve data from {source} after {retry_attempts} attempts.
Last error: {str(last_error)}"`. -/
def aggMsg (source : String) (retryAttempts : Nat) (lastErr : Option String) : String :=
  "Failed to retrieve data from " ++ source ++ " after " ++
    toString retryAttempts ++ " attempts. Last error: " ++ lastErrStr lastErr

/-- The retry loop body, recursing on the remaining attempts
(`retryAttempts - attempt`); `i` is the current attempt index, `fc`/`pc`
count fetch and persistence calls so far. -/
def getDataGo (fetch : Nat → Except String (List DbRow))
    (persist : Nat → Option String) (saveToDb : Bool) (source : String)
    (retryAttempts : Nat) :
    Nat → Nat → Option String → Nat → Nat → FacadeRun
  | 0, _, lastErr, fc, pc =>
    ⟨.runtimeError (aggMsg source retryAttempts lastErr), fc, pc⟩
  | remaining + 1, i, _, fc, pc =>
    match fetch i with
    | .error e =>
      getDataGo fetch persist saveToDb source retryAttempts
        remaining (i + 1) (some e) (fc + 1) pc
    | .ok df =>
      if df.isEmpty then ⟨.ok df, fc + 1, pc⟩
      else if saveToDb then
        match persist i with
        | some e =>
          getDataGo fetch persist saveToDb source retryAttempts
            remaining (i + 1) (some e) (fc + 1) (pc + 1)
        | none => ⟨.ok df, fc + 1, pc + 1⟩
      else ⟨.ok df, fc + 1, pc⟩

/-- `FinancialDataService.get_data`. -/
def get_data (fetch : Nat → Except String (List DbRow))
    (persist : Nat → Option String) (source : String) (saveToDb : Bool)
    (retryAttempts : Nat) : FacadeRun :=
  if source ∈ knownSources then
    getDataGo fetch persist saveToDb source retryAttempts retryAttempts 0 none 0 0
  else ⟨.valueError ("Unknown source: " ++ source), 0, 0⟩

/-! ## Concrete inputs used by counterexamples and witnesses -/

/-- Day number of 2024-01-02 (Unix epoch day 19724). -/
def day20240102 : Int := 19724

/-- A raw frame with all four columns, valid dates and codes, one null
`value` (the concrete C2 scenario rows). -/
def frameWithNullValue : RawFrame :=
  ⟨true, true, true, true,
    [⟨some day20240102, some "AAA", "close", .num 10⟩,
     ⟨some day20240102, some "BBB", "close", .null⟩]⟩

/-- A raw frame with all four columns whose only row has a null `code`. -/
def frameWithNullCode : RawFrame :=
  ⟨true, true, true, true, [⟨some day20240102, none, "close", .num 1⟩]⟩

/-- A raw frame with all four columns whose rows all predate 2020-01-01
(epoch day 18262). -/
def frameAllBeforeStart : RawFrame :=
  ⟨true, true, true, true, [⟨some 0, some "AAA", "close", .num 10⟩]⟩

/-- The concrete C4 input: two rows agreeing on the key `(AAA, 2024-01-02,
close)` with values 10.0 and 12.0. -/
def dupRows : List DbRow :=
  [⟨"AAA", day20240102, "close", 10⟩, ⟨"AAA", day20240102, "close", 12⟩]

/-- A statement executor that fails (for every sink state) exactly on batches
containing the code `"BAD"`, and otherwise upserts the batch. -/
def execFailOnBAD : Sink → List DbRow → Except DbErr Sink :=
  fun s b =>
    if b.any (fun r => r.code == "BAD") then .error ⟨"boom"⟩
    else .ok (applyRows s b)

def rowsWithBAD : List DbRow :=
  [⟨"OK", day20240102, "close", 10⟩, ⟨"BAD", day20240102, "close", 11⟩]

/-- A provider fetch that raises twice and then succeeds. -/
def fetchFailTwice : Nat → Except String (List DbRow) :=
  fun i => if i < 2 then .error "timeout" else .ok [⟨"AAA", day20240102, "close", 10⟩]

/-- A provider fetch that always succeeds with one row. -/
def fetchAlwaysOk : Nat → Except String (List DbRow) :=
  fun _ => .ok [⟨"AAA", day20240102, "close", 10⟩]

/-- A persistence step that always raises. -/
def persistAlwaysFail : Nat → Option String :=
  fun _ => some "db down"

/-! ## Helper lemmas -/

theorem applyRows_apply (l : List DbRow) (s : Sink) (k : Key) :
    applyRows s l k = match lastVal k l with
      | some v => some v
      | none => s k := by
  induction l generalizing s with
  | nil => simp [applyRows, lastVal]
  | cons r l ih =>
    show applyRows (applyRow s r) l k = _
    rw [ih]
    cases h : lastVal k l with
    | some v => simp [lastVal, h]
    | none =>
      simp only [lastVal, h]
      by_cases hk : k = rowKey r
      · simp [applyRow, hk]
      · simp [applyRow, hk]

theorem applyRows_idem (s : Sink) (l : List DbRow) :
    applyRows (applyRows s l) l = applyRows s l := by
  funext k
  rw [applyRows_apply, applyRows_apply]
  cases h : lastVal k l <;> simp [h]

theorem pgUpdateGo_ok (rs : List DbRow) :
    ∀ (s : Sink) (acc : List Key), (rs.map rowKey).Nodup →
    (∀ r ∈ rs, rowKey r ∉ acc) →
    pgUpdateGo s rs acc = .ok (applyRows s rs) := by
  induction rs with
  | nil => intro s acc _ _; rfl
  | cons r rs ih =>
    intro s acc hnd hacc
    have hr : rowKey r ∉ acc := hacc r (by simp)
    simp only [pgUpdateGo, if_neg hr]
    have hnd' : (rs.map rowKey).Nodup := (List.nodup_cons.mp hnd).2
    have hhd : rowKey r ∉ rs.map rowKey := (List.nodup_cons.mp hnd).1
    exact ih (applyRow s r) (rowKey r :: acc) hnd' (by
      intro r' hr'
      simp only [List.mem_cons]
      push_neg
      constructor
      · intro h
        exact hhd (h ▸ List.mem_map_of_mem rowKey hr')
      · exact hacc r' (List.mem_cons_of_mem r hr'))

theorem pgUpdateGo_err (rs : List DbRow) :
    ∀ (s : Sink) (acc : List Key),
    ¬ ((rs.map rowKey).Nodup ∧ ∀ r ∈ rs, rowKey r ∉ acc) →
    pgUpdateGo s rs acc = .error cardinalityViolation := by
  induction rs with
  | nil => intro s acc h; exact absurd ⟨List.nodup_nil, by simp⟩ h
  | cons r rs ih =>
    intro s acc h
    by_cases hr : rowKey r ∈ acc
    · simp [pgUpdateGo, hr]
    · simp only [pgUpdateGo, if_neg hr]
      apply ih
      intro ⟨hnd', hacc'⟩
      apply h
      constructor
      · refine List.nodup_cons.mpr ⟨?_, hnd'⟩
        intro hmem
        rcases List.mem_map.mp hmem with ⟨r', hr', hkey⟩
        exact (hacc' r' hr') (by simp [hkey])
      · intro r' hr'
        rcases List.mem_cons.mp hr' with h1 | h2
        · exact h1 ▸ hr
        · intro hmem
          exact (hacc' r' h2) (List.mem_cons_of_mem _ hmem)

theorem pgExecUpdate_ok (s : Sink) (b : List DbRow) (h : (b.map rowKey).Nodup) :
    pgExecUpdate s b = .ok (applyRows s b) :=
  pgUpdateGo_ok b s [] h (by simp)

theorem pgExecUpdate_err (s : Sink) (b : List DbRow) (h : ¬ (b.map rowKey).Nodup) :
    pgExecUpdate s b = .error cardinalityViolation :=
  pgUpdateGo_err b s [] (by simp [h])

theorem chunkGo_flatten (bs : Nat) :
    ∀ (fuel : Nat) (l : List α), l.length ≤ fuel →
    (chunkGo bs fuel l).flatten = l := by
  intro fuel
  induction fuel with
  | zero =>
    intro l hl
    cases l with
    | nil => rfl
    | cons a l => simp at hl
  | succ fuel ih =>
    intro l hl
    cases l with
    | nil => rfl
    | cons a l =>
      simp only [chunkGo, List.flatten_cons]
      rw [ih (l.drop (bs - 1)) (by
        simp only [List.length_drop]
        simp only [List.length_cons] at hl
        omega)]
      simp [List.take_append_drop]

theorem chunkList_flatten (bs : Nat) (l : List α) :
    (chunkList bs l).flatten = l :=
  chunkGo_flatten bs l.length l (Nat.le_refl _)

theorem chunkGo_length_le (bs : Nat) (hbs : 0 < bs) :
    ∀ (fuel : Nat) (l : List α), ∀ b ∈ chunkGo bs fuel l, b.length ≤ bs := by
  intro fuel
  induction fuel with
  | zero =>
    intro l b hb
    cases l with
    | nil => simp [chunkGo] at hb
    | cons a l => simp [chunkGo] at hb
  | succ fuel ih =>
    intro l b hb
    cases l with
    | nil => simp [chunkGo] at hb
    | cons a l =>
      simp only [chunkGo, List.mem_cons] at hb
      rcases hb with h | h
      · subst h
        have := List.length_take_le (bs - 1) l
        simp only [List.length_cons]
        omega
      · exact ih (l.drop (bs - 1)) b h

theorem chunkList_length_le (bs : Nat) (hbs : 0 < bs) (l : List α) :
    ∀ b ∈ chunkList bs l, b.length ≤ bs :=
  chunkGo_length_le bs hbs l.length l

theorem runBatches_stops (exec : Sink → List DbRow → Except DbErr Sink) :
    ∀ (bats : List (List DbRow)) (i : Nat) (s : Sink) (e : DbErr),
    i < bats.length →
    (∀ j, j < i → ∀ t, ∃ t', exec t (bats.getD j []) = .ok t') →
    (∀ t, exec t (bats.getD i []) = .error e) →
    runBatches exec s bats = (applyOkBatches exec s (bats.take i), some e) := by
  intro bats
  induction bats with
  | nil => intro i s e hi; simp at hi
  | cons b rest ih =>
    intro i s e hi hok herr
    cases i with
    | zero =>
      have h0 : exec s b = .error e := by
        have := herr s
        simpa [List.getD_cons_zero] using this
      simp [runBatches, h0, applyOkBatches]
    | succ j =>
      obtain ⟨t', ht'⟩ := hok 0 (Nat.succ_pos j) s
      rw [List.getD_cons_zero] at ht'
      simp only [runBatches, ht', List.take_succ_cons, applyOkBatches]
      exact ih j t' e (by simpa using hi)
        (fun j' hj' t => by
          have := hok (j' + 1) (by omega) t
          rwa [List.getD_cons_succ] at this)
        (fun t => by
          have := herr t
          rwa [List.getD_cons_succ] at this)

theorem runBatches_pg_sink :
    ∀ (bats : List (List DbRow)) (s : Sink),
    (runBatches pgExecUpdate s bats).1 = applyRows s (goodJoin bats) := by
  intro bats
  induction bats with
  | nil => intro s; rfl
  | cons b rest ih =>
    intro s
    by_cases hnd : (b.map rowKey).Nodup
    · simp only [runBatches, pgExecUpdate_ok s b hnd]
      rw [ih (applyRows s b), goodJoin, if_pos hnd]
      simp [applyRows, List.foldl_append]
    · simp only [runBatches, pgExecUpdate_err s b hnd]
      rw [goodJoin, if_neg hnd]
      rfl

theorem getDataGo_all_fetch_fail (fetch : Nat → Except String (List DbRow))
    (persist : Nat → Option String) (saveToDb : Bool) (source : String)
    (retryAttempts : Nat) (m : Nat → String) :
    ∀ (r i : Nat) (le : Option String) (fc pc : Nat),
    (∀ j, j < r → fetch (i + j) = .error (m (i + j))) →
    getDataGo fetch persist saveToDb source retryAttempts r i le fc pc =
      ⟨.runtimeError (aggMsg source retryAttempts
          (if r = 0 then le else some (m (i + r - 1)))), fc + r, pc⟩ := by
  intro r
  induction r with
  | zero => intro i le fc pc _; simp [getDataGo]
  | succ r ih =>
    intro i le fc pc hf
    have h0 : fetch i = .error (m i) := by
      have := hf 0 (Nat.succ_pos r); simpa using this
    simp only [getDataGo, h0]
    rw [ih (i + 1) (some (m i)) (fc + 1) pc (fun j hj => by
      have := hf (j + 1) (by omega)
      have e : i + (j + 1) = i + 1 + j := by omega
      rwa [e] at this)]
    have e1 : (if r = 0 then some (m i) else some (m (i + 1 + r - 1)))
        = some (m (i + r)) := by
      by_cases hr : r = 0
      · subst hr; simp
      · rw [if_neg hr]; congr 2; omega
    rw [e1]
    have e2 : (if r + 1 = 0 then le else some (m (i + (r + 1) - 1)))
        = some (m (i + r)) := by
      rw [if_neg (Nat.succ_ne_zero r)]
      congr 2
    rw [e2]
    have e3 : fc + 1 + r = fc + (r + 1) := by omega
    rw [e3]

theorem getDataGo_all_persist_fail (fetch : Nat → Except String (List DbRow))
    (persist : Nat → Option String) (source : String) (retryAttempts : Nat)
    (dfs : Nat → List DbRow) (pm : Nat → String) :
    ∀ (r i : Nat) (le : Option String) (fc pc : Nat),
    (∀ j, j < r → fetch (i + j) = .ok (dfs (i + j))) →
    (∀ j, j < r → dfs (i + j) ≠ []) →
    (∀ j, j < r → persist (i + j) = some (pm (i + j))) →
    getDataGo fetch persist true source retryAttempts r i le fc pc =
      ⟨.runtimeError (aggMsg source retryAttempts
          (if r = 0 then le else some (pm (i + r - 1)))), fc + r, pc + r⟩ := by
  intro r
  induction r with
  | zero => intro i le fc pc _ _ _; simp [getDataGo]
  | succ r ih =>
    intro i le fc pc hf hne hp
    have h0 : fetch i = .ok (dfs i) := by
      have := hf 0 (Nat.succ_pos r); simpa using this
    have hne0 : dfs i ≠ [] := by
      have := hne 0 (Nat.succ_pos r); simpa using this
    have hp0 : persist i = some (pm i) := by
      have := hp 0 (Nat.succ_pos r); simpa using this
    have hemp : (dfs i).isEmpty = false := by
      cases h : dfs i with
      | nil => exact absurd h hne0
      | cons a l => rfl
    simp only [getDataGo, h0, hemp, Bool.false_eq_true, if_false, if_true, hp0]
    rw [ih (i + 1) (some (pm i)) (fc + 1) (pc + 1)
      (fun j hj => by
        have := hf (j + 1) (by omega)
        have e : i + (j + 1) = i + 1 + j := by omega
        rwa [e] at this)
      (fun j hj => by
        have := hne (j + 1) (by omega)
        have e : i + (j + 1) = i + 1 + j := by omega
        rwa [e] at this)
      (fun j hj => by
        have := hp (j + 1) (by omega)
        have e : i + (j + 1) = i + 1 + j := by omega
        rwa [e] at this)]
    have e1 : (if r = 0 then some (pm i) else some (pm (i + 1 + r - 1)))
        = some (pm (i + r)) := by
      by_cases hr : r = 0
      · subst hr; simp
      · rw [if_neg hr]; congr 2; omega
    rw [e1]
    have e2 : (if r + 1 = 0 then le else some (pm (i + (r + 1) - 1)))
        = some (pm (i + r)) := by
      rw [if_neg (Nat.succ_ne_zero r)]
      congr 2
    rw [e2]
    have e3 : fc + 1 + r = fc + (r + 1) := by omega
    have e4 : pc + 1 + r = pc + (r + 1) := by omega
    rw [e3, e4]

theorem getDataGo_skip_fail_then_ok (fetch : Nat → Except String (List DbRow))
    (persist : Nat → Option String) (saveToDb : Bool) (source : String)
    (retryAttempts : Nat) (m : Nat → String) (df : List DbRow) :
    ∀ (k r i : Nat) (le : Option String) (fc pc : Nat),
    k < r →
    (∀ j, j < k → fetch (i + j) = .error (m (i + j))) →
    fetch (i + k) = .ok df →
    (saveToDb = true → df ≠ [] → persist (i + k) = none) →
    (getDataGo fetch persist saveToDb source retryAttempts r i le fc pc).result
      = .ok df := by
  intro k
  induction k with
  | zero =>
    intro r i le fc pc hr _ hok hp
    obtain ⟨r', rfl⟩ : ∃ r', r = r' + 1 := ⟨r - 1, by omega⟩
    have h0 : fetch i = .ok df := by simpa using hok
    simp only [getDataGo, h0]
    by_cases he : df.isEmpty = true
    · simp [he]
    · rw [if_neg he]
      have hne : df ≠ [] := by
        cases h : df with
        | nil => rw [h] at he; exact absurd rfl he
        | cons a l => simp
      cases hsv : saveToDb with
      | false => rfl
      | true =>
        have hpn : persist i = none := by
          have := hp hsv hne
          simpa using this
        rw [if_pos rfl, hpn]
  | succ k ih =>
    intro r i le fc pc hr hfail hok hp
    obtain ⟨r', rfl⟩ : ∃ r', r = r' + 1 := ⟨r - 1, by omega⟩
    have h0 : fetch i = .error (m i) := by
      have := hfail 0 (Nat.succ_pos k); simpa using this
    simp only [getDataGo, h0]
    refine ih r' (i + 1) (some (m i)) (fc + 1) pc (by omega)
      (fun j hj => by
        have := hfail (j + 1) (by omega)
        have e : i + (j + 1) = i + 1 + j := by omega
        rwa [e] at this)
      (by
        have e : i + (k + 1) = i + 1 + k := by omega
        rwa [e] at hok)
      (by
        have e : i + (k + 1) = i + 1 + k := by omega
        rwa [e] at hp)

/-! ## Claim theorems -/

/-- Claim C1 counterexample: a frame with all four canonical columns whose
only row has a null `code` makes `_validate_output` raise the null-code
ValidationError, so control never reaches the `df['value'].isfinite()` line
for this four-column input — refuting the claim's assertion that every input
with all four columns reaches the finiteness check. -/
theorem validate_output_null_code_stops_early :
    missingCols frameWithNullCode = [] ∧
    _validate_output 0 frameWithNullCode = .error .nullCode ∧
    ¬ reachesFinitenessCheck 0 frameWithNullCode := by
  refine ⟨by decide, by decide, ?_⟩
  intro h
  rw [reachesFinitenessCheck,
    show _validate_output 0 frameWithNullCode = .error .nullCode by decide] at h
  exact absurd h (by decide)

/-- Claim C1 (amended): `_validate_output` raises ValidationError on every
input and never returns a table. A missing required column raises the
missing-columns error; an input with all four columns whose dates all
coerce, whose codes are all non-null, and whose non-null values are all
float-coercible reaches the finiteness check `df['value'].isfinite()` (an
attribute pandas Series does not define), whose AttributeError the
surrounding handler re-raises as ValidationError; and no input whatsoever
produces a returned `.ok` result. (Amendment: inputs with all four columns
but a failing date coercion, a null code, or a surviving value on which
`astype(float)` fails raise the corresponding earlier ValidationError
instead of reaching the finiteness check.) -/
theorem validate_output_always_raises :
    (∀ sd df, missingCols df ≠ [] →
      _validate_output sd df = .error (.missingColumns (missingCols df))) ∧
    (∀ sd df, missingCols df = [] →
      (∀ r ∈ df.rows, r.date.isSome) →
      (∀ r ∈ df.rows, r.code.isSome) →
      (∀ r ∈ df.rows, r.value ≠ RawValue.null → r.value.floatCoercible = true) →
      reachesFinitenessCheck sd df) ∧
    (∀ sd df rows, _validate_output sd df ≠ .ok rows) := by
  refine ⟨?_, ?_, ?_⟩
  · intro sd df h
    simp [_validate_output, h]
  · intro sd df h hd hc hv
    have h2 : df.rows.any (fun r => r.date.isNone) = false := by
      rw [List.any_eq_false]
      intro r hr
      obtain ⟨d, hdd⟩ := Option.isSome_iff_exists.mp (hd r hr)
      simp [hdd]
    have h3 : df.rows.any (fun r => r.code.isNone) = false := by
      rw [List.any_eq_false]
      intro r hr
      obtain ⟨c, hcc⟩ := Option.isSome_iff_exists.mp (hc r hr)
      simp [hcc]
    have h4 : (df.rows.filter (fun r => r.value ≠ RawValue.null)).any
        (fun r => !r.value.floatCoercible) = false := by
      rw [List.any_eq_false]
      intro r hr
      rw [List.mem_filter] at hr
      have hcr := hv r hr.1 (by simpa using hr.2)
      simp [hcr]
    simp [reachesFinitenessCheck, _validate_output, h, h2, h3, h4]
    exact hv
  · intro sd df rows
    unfold _validate_output
    split
    · simp
    · split
      · simp
      · split
        · simp
        · split
          · simp
          · simp

theorem validate_output_always_raises_witness :
    missingCols frameWithNullValue = [] ∧
    reachesFinitenessCheck 0 frameWithNullValue :=
  ⟨by decide,
    validate_output_always_raises.2.1 0 frameWithNullValue (by decide)
      (by decide) (by decide) (by decide)⟩

/-- Claim C2 (code bug): on the concrete four-column frame with coercible
dates, non-null codes and one null `value`, `_validate_output` does not
return the null-dropped rows — it raises the ValidationError wrapping the
AttributeError from `df['value'].isfinite()`, because pandas Series defines
no `isfinite` method. -/
theorem validate_output_null_value_drop_unreachable :
    _validate_output 0 frameWithNullValue = .error .isfiniteAttributeError ∧
    ∀ rows, _validate_output 0 frameWithNullValue ≠ .ok rows := by
  refine ⟨by decide, ?_⟩
  intro rows h
  rw [show _validate_output 0 frameWithNullValue
      = .error .isfiniteAttributeError by decide] at h
  exact Except.noConfusion h

/-- Claim C3 (code bug): on a four-column frame whose rows all predate the
configured `start_date`, `_validate_output` does not return the empty table
with a warning — the `start_date` filter is dead code behind the
`df['value'].isfinite()` AttributeError, so the call raises the wrapped
ValidationError instead. -/
theorem validate_output_start_date_filter_unreachable :
    _validate_output 18262 frameAllBeforeStart = .error .isfiniteAttributeError ∧
    ∀ rows, _validate_output 18262 frameAllBeforeStart ≠ .ok rows := by
  refine ⟨by decide, ?_⟩
  intro rows h
  rw [show _validate_output 18262 frameAllBeforeStart
      = .error .isfiniteAttributeError by decide] at h
  exact Except.noConfusion h

/-- Claim C4 counterexample: the concrete two-row duplicate-key input with
`update=True` and the default batch size 5000 does not succeed with one
value-12.0 row — the single generated statement fails with the
cardinality-violation database error and the key remains absent from the
sink. -/
theorem to_sql_duplicate_keys_counterexample :
    (to_sql pgExecUpdate dupRows 5000 emptySink).err = some cardinalityViolation ∧
    (to_sql pgExecUpdate dupRows 5000 emptySink).sink
        ("AAA", day20240102, "close") ≠ some 12 := by
  exact ⟨by decide, by decide⟩

/-- Claim C4 (amended): `to_sql` performs no deduplication; rows agreeing on
the primary keys that land in the same batch make that statement fail.
Concretely: with batch size 5000 the two duplicate rows share one statement,
the call raises the cardinality-violation error and the sink is unchanged;
only when the duplicates fall into different batches (batch size 1) does the
call succeed with last-occurrence-wins, leaving the single row value 12.0. -/
theorem to_sql_duplicate_keys_behavior :
    (to_sql pgExecUpdate dupRows 5000 emptySink).err = some cardinalityViolation ∧
    (to_sql pgExecUpdate dupRows 5000 emptySink).sink = emptySink ∧
    (to_sql pgExecUpdate dupRows 1 emptySink).err = none ∧
    (to_sql pgExecUpdate dupRows 1 emptySink).sink ("AAA", day20240102, "close")
      = some 12 := by
  exact ⟨by decide, rfl, by decide, by decide⟩

/-- Claim C5 counterexample: with a provider that always succeeds with a
non-empty frame, a `to_sql` step that always raises, `save_to_db=True` and
`retry_attempts=2`, the persistence failure does not propagate directly: the
retry loop consumes both attempts, the fetch step is re-entered (two fetch
calls), and the facade raises the aggregated RuntimeError wrapping the
persistence message. -/
theorem get_data_persist_failure_counterexample :
    (get_data fetchAlwaysOk persistAlwaysFail "sgs" true 2).fetchCalls = 2 ∧
    (get_data fetchAlwaysOk persistAlwaysFail "sgs" true 2).persistCalls = 2 ∧
    (get_data fetchAlwaysOk persistAlwaysFail "sgs" true 2).result
      = .runtimeError
          "Failed to retrieve data from sgs after 2 attempts. Last error: db down" := by
  exact ⟨by decide, by decide, by decide⟩

/-- Claim C5 (amended): in `FinancialDataService.get_data`, a raising
`to_sql` call is caught by the surrounding retry loop: each
fetch-success/persist-failure round consumes one of `retry_attempts` and
re-enters the fetch step, and after `n` such rounds the facade raises the
single aggregated RuntimeError embedding the last persistence failure's
message, having called the fetch and the persistence step `n` times each. -/
theorem get_data_persist_failure_consumes_retries
    (fetch : Nat → Except String (List DbRow)) (persist : Nat → Option String)
    (source : String) (n : Nat) (dfs : Nat → List DbRow) (pm : Nat → String)
    (hsrc : source ∈ knownSources) (hn : 0 < n)
    (hfetch : ∀ i, i < n → fetch i = .ok (dfs i))
    (hne : ∀ i, i < n → dfs i ≠ [])
    (hpersist : ∀ i, i < n → persist i = some (pm i)) :
    (get_data fetch persist source true n).result
      = .runtimeError (aggMsg source n (some (pm (n - 1)))) ∧
    (get_data fetch persist source true n).fetchCalls = n ∧
    (get_data fetch persist source true n).persistCalls = n := by
  unfold get_data
  rw [if_pos hsrc]
  rw [getDataGo_all_persist_fail fetch persist source n dfs pm n 0 none 0 0
    (fun j hj => by simpa using hfetch j hj)
    (fun j hj => by simpa using hne j hj)
    (fun j hj => by simpa using hpersist j hj)]
  rw [if_neg (by omega)]
  simp

theorem get_data_persist_failure_consumes_retries_witness :
    ("sgs" ∈ knownSources ∧ 0 < 2) ∧
    (get_data fetchAlwaysOk persistAlwaysFail "sgs" true 2).result
      = .runtimeError (aggMsg "sgs" 2 (some "db down")) :=
  ⟨⟨by decide, by decide⟩,
    (get_data_persist_failure_consumes_retries fetchAlwaysOk persistAlwaysFail
      "sgs" 2 (fun _ => [⟨"AAA", day20240102, "close", 10⟩]) (fun _ => "db down")
      (by decide) (by decide) (fun i _ => rfl)
      (fun i _ => List.cons_ne_nil _ _) (fun i _ => rfl)).1⟩

/-- Claim C6: for a recognized source with `retry_attempts = n`: when the
provider raises on the first `k < n` attempts and succeeds on attempt `k + 1`
(and the persistence step does not raise, or `save_to_db` is false, or the
frame is empty), the facade returns that successful frame and raises nothing;
when the provider raises on all `n` attempts, the facade raises exactly the
single aggregated RuntimeError naming the source and embedding the last
underlying failure's message. -/
theorem get_data_retry_semantics
    (fetch : Nat → Except String (List DbRow)) (persist : Nat → Option String)
    (source : String) (saveToDb : Bool) (n k : Nat) (df : List DbRow)
    (m : Nat → String) (hsrc : source ∈ knownSources) :
    (k < n → (∀ j, j < k → fetch j = .error (m j)) → fetch k = .ok df →
      (saveToDb = true → df ≠ [] → persist k = none) →
      (get_data fetch persist source saveToDb n).result = .ok df) ∧
    ((∀ j, j < n → fetch j = .error (m j)) → 0 < n →
      (get_data fetch persist source saveToDb n).result
        = .runtimeError (aggMsg source n (some (m (n - 1))))) := by
  constructor
  · intro hk hfail hok hp
    unfold get_data
    rw [if_pos hsrc]
    exact getDataGo_skip_fail_then_ok fetch persist saveToDb source n m df
      k n 0 none 0 0 hk
      (fun j hj => by simpa using hfail j hj)
      (by simpa using hok)
      (fun hsv hne => by simpa using hp hsv hne)
  · intro hfail hn
    unfold get_data
    rw [if_pos hsrc]
    rw [getDataGo_all_fetch_fail fetch persist saveToDb source n m n 0 none 0 0
      (fun j hj => by simpa using hfail j hj)]
    rw [if_neg (by omega)]
    simp only [Nat.zero_add]

theorem get_data_retry_semantics_witness :
    ((2 : Nat) < 3 ∧ "sgs" ∈ knownSources) ∧
    (get_data fetchFailTwice (fun _ => none) "sgs" true 3).result
      = .ok [⟨"AAA", day20240102, "close", 10⟩] :=
  ⟨⟨by decide, by decide⟩,
    (get_data_retry_semantics fetchFailTwice (fun _ => none) "sgs" true 3 2
      [⟨"AAA", day20240102, "close", 10⟩] (fun _ => "timeout")
      (by decide)).1 (by decide)
      (fun j hj => by
        match j, hj with
        | 0, _ => rfl
        | 1, _ => rfl)
      rfl (fun _ _ => rfl)⟩

/-- Claim C7: `to_sql` partitions the input into consecutive batches of at
most `batch_size` rows whose concatenation is exactly the input; when every
statement before batch `i` succeeds and batch `i`'s statement fails with
driver error `e`, the call surfaces exactly `e` (the driver's message), the
committed sink is the result of the independently committed batches before
`i`, and no later batch is applied. -/
theorem to_sql_batch_failure_semantics
    (exec : Sink → List DbRow → Except DbErr Sink) (data : List DbRow)
    (batchSize : Nat) (s : Sink) (i : Nat) (e : DbErr)
    (hbs : 0 < batchSize) (hne : data ≠ [])
    (hi : i < (chunkList batchSize data).length)
    (hok : ∀ j, j < i → ∀ t, ∃ u,
      exec t ((chunkList batchSize data).getD j []) = .ok u)
    (herr : ∀ t, exec t ((chunkList batchSize data).getD i []) = .error e) :
    (∀ b ∈ chunkList batchSize data, b.length ≤ batchSize) ∧
    (chunkList batchSize data).flatten = data ∧
    (to_sql exec data batchSize s).err = some e ∧
    (to_sql exec data batchSize s).sink
      = applyOkBatches exec s ((chunkList batchSize data).take i) := by
  have hrb := runBatches_stops exec (chunkList batchSize data) i s e hi hok herr
  refine ⟨chunkList_length_le batchSize hbs data,
    chunkList_flatten batchSize data, ?_, ?_⟩
  · cases data with
    | nil => exact absurd rfl hne
    | cons d ds =>
      show (runBatches exec s (chunkList batchSize (d :: ds))).2 = some e
      rw [hrb]
  · cases data with
    | nil => exact absurd rfl hne
    | cons d ds =>
      show (runBatches exec s (chunkList batchSize (d :: ds))).1 = _
      rw [hrb]

theorem to_sql_batch_failure_semantics_witness :
    (0 < 1 ∧ rowsWithBAD ≠ [] ∧ 1 < (chunkList 1 rowsWithBAD).length) ∧
    (to_sql execFailOnBAD rowsWithBAD 1 emptySink).err = some ⟨"boom"⟩ :=
  ⟨⟨by decide, by decide, by decide⟩,
    (to_sql_batch_failure_semantics execFailOnBAD rowsWithBAD 1 emptySink 1
      ⟨"boom"⟩ (by decide) (by decide) (by decide)
      (fun j hj t => by
        have hj0 : j = 0 := by omega
        subst hj0
        exact ⟨applyRows t ((chunkList 1 rowsWithBAD).getD 0 []), rfl⟩)
      (fun t => rfl)).2.2.1⟩

/-- Claim C8: every execution error inside `read_sql` is caught and turned
into an empty table: the error outcome maps to `.ok []`, the result is `.ok`
for every query outcome (no execution error propagates to the caller), and
the error result is indistinguishable from a successful zero-row query. -/
theorem read_sql_swallows_errors :
    ∀ (α : Type) (e : String) (queryRun : Except String (List α)),
      read_sql (Except.error e : Except String (List α)) = .ok [] ∧
      (∃ df, read_sql queryRun = .ok df) ∧
      read_sql (Except.error e : Except String (List α))
        = read_sql (Except.ok ([] : List α)) := by
  intro α e q
  refine ⟨rfl, ?_, rfl⟩
  cases q with
  | ok df => exact ⟨df, rfl⟩
  | error e2 => exact ⟨[], rfl⟩

/-- Claim C9: with `update=True` (PostgreSQL upsert statements,
`pgExecUpdate`), calling `to_sql` twice in succession with the same input,
batch size and keys leaves the sink in the same final state as calling it
once: the second call's conflict-resolution clause overwrites each existing
row with identical values. -/
theorem to_sql_update_idempotent (data : List DbRow) (batchSize : Nat) (s : Sink) :
    (to_sql pgExecUpdate data batchSize
        ((to_sql pgExecUpdate data batchSize s).sink)).sink
      = (to_sql pgExecUpdate data batchSize s).sink := by
  cases data with
  | nil => rfl
  | cons d ds =>
    have once : (to_sql pgExecUpdate (d :: ds) batchSize s).sink
        = applyRows s (goodJoin (chunkList batchSize (d :: ds))) := by
      show (runBatches pgExecUpdate s (chunkList batchSize (d :: ds))).1 = _
      exact runBatches_pg_sink _ _
    rw [once]
    show (runBatches pgExecUpdate
        (applyRows s (goodJoin (chunkList batchSize (d :: ds))))
        (chunkList batchSize (d :: ds))).1 = _
    rw [runBatches_pg_sink]
    exact applyRows_idem _ _

/-- Claim C10: a zero-row input makes `to_sql` return right after the length
check: no database connection is opened, no table creation is attempted, no
error is raised, and the persisted sink is exactly what it was before the
call. -/
theorem to_sql_empty_input_noop (exec : Sink → List DbRow → Except DbErr Sink)
    (data : List DbRow) (batchSize : Nat) (s : Sink) (h : data = []) :
    to_sql exec data batchSize s = ⟨s, none, false, false⟩ := by
  subst h
  rfl

theorem to_sql_empty_input_noop_witness :
    ([] : List DbRow) = [] ∧
    to_sql pgExecUpdate [] 5000 emptySink = ⟨emptySink, none, false, false⟩ :=
  ⟨rfl, to_sql_empty_input_noop pgExecUpdate [] 5000 emptySink rfl⟩

end PerseveraTools
